import Mathlib

/-!
Verification of the MCP conversational-agent backend (`src/server.ts`).

The development shallowly embeds the persistence-facing core of the server:
the JSON state values, the relational rows (User, Conversation,
ConversationState, Message, Consent), the identity resolver
`ensureUserAndConversation`, the `setState` shallow-merge logic, the SSO
token cache `getSSOToken`, the `validateUserInSSO` tool, the
doc-confirmation tools and `getConversationSummary`.  Database operations
(Prisma `upsert`, `findUnique`, `update`, `findMany orderBy`) are modelled
as explicit list manipulations; the auto-increment id / creation-time
sequence is a single monotone counter `nextId`.
-/

/-- JSON values as stored in the `data` JSON column.  Numbers are modelled
as integers (no claim depends on fractional values). -/
inductive Json where
  | null : Json
  | bool : Bool → Json
  | num : Int → Json
  | str : String → Json
  | arr : List Json → Json
  | obj : List (String × Json) → Json

/-- JavaScript truthiness of a JSON value (`!v` in the source negates it):
`null`, `false`, `0` and `""` are falsy; arrays and objects are truthy. -/
def jsIsTruthy : Json → Bool
  | Json.null => false
  | Json.bool b => b
  | Json.num n => !(n == 0)
  | Json.str s => !(s == "")
  | Json.arr _ => true
  | Json.obj _ => true

/-- JavaScript `typeof v === "object"`: true for `null`, arrays and
objects; false for booleans, numbers and strings. -/
def jsTypeofIsObject : Json → Bool
  | Json.null => true
  | Json.arr _ => true
  | Json.obj _ => true
  | _ => false

/-- Property lookup on an object field list: the first binding of the key,
as JavaScript property access on the modelled object. -/
def objGet (fields : List (String × Json)) (k : String) : Option Json :=
  (fields.find? (fun p => p.1 == k)).map (fun p => p.2)

/-- Index-keyed entries of an array, as enumerated by JavaScript object
spread applied to an array (own enumerable properties `"0"`, `"1"`, ...). -/
def enumEntries (i : Nat) : List Json → List (String × Json)
  | [] => []
  | x :: xs => (toString i, x) :: enumEntries (i + 1) xs

/-- Own enumerable string-keyed entries of a JSON value, as consumed by
JavaScript object spread.  Objects yield their fields, arrays their
index-keyed elements, primitives nothing. -/
def jsOwnEntries : Json → List (String × Json)
  | Json.obj fields => fields
  | Json.arr xs => enumEntries 0 xs
  | _ => []

/-- JavaScript object spread `{...old, ...new}` on field lists: keys of
`old` keep their position but are overwritten by a binding in `new` when
one exists; keys of `new` that are absent from `old` are appended in
order. -/
def spreadMerge (old new : List (String × Json)) : List (String × Json) :=
  (old.map (fun p => (p.1, (objGet new p.1).getD p.2))) ++
    new.filter (fun q => (objGet old q.1).isNone)

/-- The `nextData` computation of the `setState` tool (server.ts:539-542):
`replace || !current?.data || typeof current.data !== "object" ? data :
{ ...(current.data as any), ...data }`. -/
def setStateNext (current : Option Json) (data : List (String × Json))
    (replace : Bool) : Json :=
  match current with
  | none => Json.obj data
  | some st =>
      if replace || !(jsIsTruthy st) || !(jsTypeofIsObject st) then Json.obj data
      else Json.obj (spreadMerge (jsOwnEntries st) data)

theorem objGet_nil (k : String) : objGet [] k = none := rfl

theorem objGet_cons (a : String) (b : Json) (t : List (String × Json)) (k : String) :
    objGet ((a, b) :: t) k = if a == k then some b else objGet t k := by
  by_cases h : a = k
  · subst h; simp [objGet]
  · simp [objGet, h, List.find?_cons_of_neg, show (((a, b) : String × Json).1 == k) = false by
      simpa using h]

theorem objGet_mapOverwrite (old new : List (String × Json)) (k : String) :
    objGet (old.map (fun p => (p.1, (objGet new p.1).getD p.2))) k
      = (objGet old k).map (fun v => (objGet new k).getD v) := by
  induction old with
  | nil => simp [objGet]
  | cons hd t ih =>
      obtain ⟨a, b⟩ := hd
      by_cases h : a = k
      · subst h
        simp [objGet_cons]
      · simp only [List.map_cons, objGet_cons, beq_iff_eq, if_neg h, ih]

theorem objGet_filter_notin (old new : List (String × Json)) (k : String)
    (h : objGet old k = none) :
    objGet (new.filter (fun q => (objGet old q.1).isNone)) k = objGet new k := by
  induction new with
  | nil => simp
  | cons hd t ih =>
      obtain ⟨a, b⟩ := hd
      by_cases hk : a = k
      · subst hk
        simp [List.filter_cons, h, objGet_cons, ih]
      · rcases hq : (objGet old a).isNone with _ | _ <;>
          simp [List.filter_cons, hq, objGet_cons, hk, ih]

theorem objGet_append (l1 l2 : List (String × Json)) (k : String) :
    objGet (l1 ++ l2) k = (objGet l1 k).or (objGet l2 k) := by
  unfold objGet
  rw [List.find?_append, Option.map_or']

/-- Lookup after a JavaScript object spread: a key takes its value from
the new data when bound there, otherwise from the prior object. -/
theorem objGet_spreadMerge (old new : List (String × Json)) (k : String) :
    objGet (spreadMerge old new) k = (objGet new k).or (objGet old k) := by
  show objGet (_ ++ _) k = _
  rw [objGet_append, objGet_mapOverwrite]
  rcases ho : objGet old k with _ | v
  · rw [objGet_filter_notin old new k ho]
    simp
  · rcases hn : objGet new k with _ | w <;> simp

/-- Spreading new data over the empty object yields exactly the new
data. -/
theorem spreadMerge_nil (new : List (String × Json)) : spreadMerge [] new = new := by
  unfold spreadMerge
  simp [objGet]

/-- The `Channel` enum of the Prisma schema. -/
inductive Channel where
  | whatsapp : Channel
  | web : Channel
  | other : Channel
deriving DecidableEq

/-- `input.toLowerCase()`, modelled character-wise (the channel names of
interest are ASCII). -/
def strToLower (s : String) : String := String.mk (s.data.map Char.toLower)

/-- `parseChannel` (server.ts:64-69): case-insensitive match against
"whatsapp" and "web", everything else maps to `other`. -/
def parseChannel (input : String) : Channel :=
  let v := strToLower input
  if v = "whatsapp" then Channel.whatsapp
  else if v = "web" then Channel.web
  else Channel.other

/-- A `User` row: unique composite key (channel, externalId), optional
phone and docNumber. -/
structure User where
  id : Nat
  channel : Channel
  externalId : String
  phone : Option String
  docNumber : Option String

/-- A `Conversation` row; `createdAt` is drawn from the monotone
counter. -/
structure Conversation where
  id : Nat
  userId : Nat
  createdAt : Nat

/-- A `ConversationState` row: one JSON blob keyed by conversation. -/
structure ConversationState where
  conversationId : Nat
  data : Json

/-- A `Message` row. -/
structure Message where
  id : Nat
  conversationId : Nat
  role : String
  content : String
  meta : List (String × Json)
  createdAt : Nat

/-- A `Consent` row. -/
structure Consent where
  id : Nat
  conversationId : Nat
  policyVersion : String
  accepted : Bool
  acceptedAt : Option Nat
  meta : List (String × Json)
  createdAt : Nat

/-- The relational store.  `nextId` is the shared auto-increment id and
creation-time counter. -/
structure DB where
  users : List User
  conversations : List Conversation
  states : List ConversationState
  messages : List Message
  consents : List Consent
  nextId : Nat

/-- The `where: { channel_externalId: ... }` unique-key predicate of the
user upsert. -/
def userKeyMatches (c : Channel) (e : String) (u : User) : Bool :=
  u.channel == c && u.externalId == e

/-- Row lookup by the (channel, externalId) unique key. -/
def findUser (users : List User) (c : Channel) (e : String) : Option User :=
  users.find? (userKeyMatches c e)

/-- The `update:` part of the user upsert (server.ts:88-91): overwrite
phone/docNumber only when a new value is provided (`args.phone ??
undefined` makes Prisma skip absent fields). -/
def applyUserUpdate (phone docNumber : Option String) (u : User) : User :=
  { u with
    phone := match phone with | some p => some p | none => u.phone,
    docNumber := match docNumber with | some d => some d | none => u.docNumber }

/-- `prisma.user.upsert` (server.ts:79-93): update the row matched by the
unique key, or create the user together with one conversation
atomically (`conversations: { create: {} }`). -/
def upsertUserStep (db : DB) (c : Channel) (e : String)
    (phone docNumber : Option String) : DB × User :=
  match findUser db.users c e with
  | some u =>
      let users :=
        db.users.map (fun x => if userKeyMatches c e x then applyUserUpdate phone docNumber x else x)
      ({ db with users := users }, applyUserUpdate phone docNumber u)
  | none =>
      let u : User :=
        { id := db.nextId, channel := c, externalId := e,
          phone := phone, docNumber := docNumber }
      let conv : Conversation :=
        { id := db.nextId + 1, userId := db.nextId, createdAt := db.nextId + 1 }
      let db1 : DB :=
        { db with users := db.users ++ [u],
                  conversations := db.conversations ++ [conv],
                  nextId := db.nextId + 2 }
      (db1, u)

/-- `orderBy: { createdAt: "desc" }, take: 1` over a filtered table: the
row with the greatest creation time (deterministically the earliest such
row on ties). -/
def pickLatest : List Conversation → Option Conversation
  | [] => none
  | c :: cs =>
      match pickLatest cs with
      | none => some c
      | some b => some (if c.createdAt < b.createdAt then b else c)

/-- The most-recently-created conversation of a user
(server.ts:92: `conversations: { orderBy: { createdAt: "desc" }, take: 1 }`). -/
def latestConversation (convs : List Conversation) (uid : Nat) : Option Conversation :=
  pickLatest (convs.filter (fun c => c.userId == uid))

/-- Steps 2-3 of the resolver (server.ts:95-100): use the latest
conversation, or create one when none exists. -/
def resolveConversation (db : DB) (uid : Nat) : DB × Conversation :=
  match latestConversation db.conversations uid with
  | some conv => (db, conv)
  | none =>
      let conv : Conversation := { id := db.nextId, userId := uid, createdAt := db.nextId }
      ({ db with conversations := db.conversations ++ [conv], nextId := db.nextId + 1 }, conv)

/-- `prisma.conversationState.upsert` (server.ts:102-106): create the
state row with the empty object when absent, otherwise a no-op update. -/
def upsertStateStep (db : DB) (cid : Nat) : DB :=
  match db.states.find? (fun s => s.conversationId == cid) with
  | some _ => db
  | none =>
      { db with states := db.states ++ [{ conversationId := cid, data := Json.obj [] }] }

/-- Result of the identity resolver. -/
structure EnsureResult where
  db : DB
  user : User
  conversation : Conversation

/-- `ensureUserAndConversation` (server.ts:71-109): normalize the
channel, upsert the user (creating an initial conversation atomically on
first contact), resolve the most-recent conversation (creating one when
absent), and upsert the conversation-state row. -/
def ensureUserAndConversation (db : DB) (channel externalId : String)
    (phone docNumber : Option String) : EnsureResult :=
  let c := parseChannel channel
  let s1 := upsertUserStep db c externalId phone docNumber
  let s2 := resolveConversation s1.1 s1.2.id
  { db := upsertStateStep s2.1 s2.2.id, user := s1.2, conversation := s2.2 }

/-- `findUnique` on the state table, projected to the stored JSON
value. -/
def getStateRow (states : List ConversationState) (cid : Nat) : Option Json :=
  (states.find? (fun s => s.conversationId == cid)).map (fun s => s.data)

/-- Number of state rows stored for a conversation. -/
def stateCount (states : List ConversationState) (cid : Nat) : Nat :=
  (states.filter (fun s => s.conversationId == cid)).length

/-- `prisma.conversationState.update` with a whole `data` value: every
row matched by the unique conversation key gets the new blob. -/
def updateStateData (db : DB) (cid : Nat) (v : Json) : DB :=
  let states :=
    db.states.map (fun s => if s.conversationId == cid then { s with data := v } else s)
  { db with states := states }

/-- The `initConversation` tool (server.ts:132-163): run the resolver and
return the pair of ids serialized in the reply. -/
def initConversation (db : DB) (channel externalId : String)
    (phone docNumber : Option String) : DB × Nat × Nat :=
  let r := ensureUserAndConversation db channel externalId phone docNumber
  (r.db, r.user.id, r.conversation.id)

/-- The `setState` tool (server.ts:518-553): resolve the conversation,
read the current state row, compute `nextData` (replace or shallow
merge) and write it back. -/
def setState (db : DB) (channel externalId : String)
    (data : List (String × Json)) (replace : Bool) : DB :=
  let r := ensureUserAndConversation db channel externalId none none
  let current := getStateRow r.db.states r.conversation.id
  let nextData := setStateNext current data replace
  updateStateData r.db r.conversation.id nextData

/-- The `getState` tool (server.ts:490-513): resolve the conversation and
return the stored blob, defaulting to the empty object. -/
def getState (db : DB) (channel externalId : String) : DB × Json :=
  let r := ensureUserAndConversation db channel externalId none none
  (r.db, (getStateRow r.db.states r.conversation.id).getD (Json.obj []))

/-- The `requestDocNumberConfirmation` tool (server.ts:270-310): resolve
the conversation and overwrite its state blob with the
awaiting-confirmation marker and the pending docNumber. -/
def requestDocNumberConfirmation (db : DB) (channel externalId docNumber : String) : DB :=
  let r := ensureUserAndConversation db channel externalId none none
  updateStateData r.db r.conversation.id
    (Json.obj [("step", Json.str "awaiting_doc_confirmation"), ("docNumber", Json.str docNumber)])

/-- The `confirmDocNumber` tool (server.ts:315-350): resolve the
conversation and overwrite its state blob with the confirmed marker. -/
def confirmDocNumber (db : DB) (channel externalId : String) : DB :=
  let r := ensureUserAndConversation db channel externalId none none
  updateStateData r.db r.conversation.id (Json.obj [("step", Json.str "document_confirmed")])

/-- The `appendMessage` tool (server.ts:558-589): resolve the
conversation and append a message row. -/
def appendMessage (db : DB) (channel externalId role content : String)
    (meta : List (String × Json)) : DB × Nat :=
  let r := ensureUserAndConversation db channel externalId none none
  let m : Message :=
    { id := r.db.nextId, conversationId := r.conversation.id, role := role,
      content := content, meta := meta, createdAt := r.db.nextId }
  ({ r.db with messages := r.db.messages ++ [m], nextId := r.db.nextId + 1 }, m.id)

/-- The message rows of one conversation. -/
def messagesFor (msgs : List Message) (cid : Nat) : List Message :=
  msgs.filter (fun m => m.conversationId == cid)

/-- Insertion step of the `orderBy: { createdAt: "desc" }` sort. -/
def insertDesc (m : Message) : List Message → List Message
  | [] => [m]
  | x :: xs => if x.createdAt ≤ m.createdAt then m :: x :: xs else x :: insertDesc m xs

/-- `orderBy: { createdAt: "desc" }` over the message table, as a
deterministic sort. -/
def sortDesc : List Message → List Message
  | [] => []
  | x :: xs => insertDesc x (sortDesc xs)

/-- `findFirst orderBy createdAt desc` over filtered consents. -/
def pickLatestConsent : List Consent → Option Consent
  | [] => none
  | c :: cs =>
      match pickLatestConsent cs with
      | none => some c
      | some b => some (if c.createdAt < b.createdAt then b else c)

/-- The reply of `getConversationSummary`. -/
structure Summary where
  userId : Nat
  conversationId : Nat
  consent : Option Consent
  state : Json
  messages : List Message

/-- The `getConversationSummary` tool (server.ts:594-651): resolve the
conversation; read the state row, the latest consent and the last
`lastMessages` messages (queried newest-first, then reversed into
chronological order). -/
def getConversationSummary (db : DB) (channel externalId : String)
    (lastMessages : Nat) : DB × Summary :=
  let r := ensureUserAndConversation db channel externalId none none
  let state := (getStateRow r.db.states r.conversation.id).getD (Json.obj [])
  let lastConsent :=
    pickLatestConsent (r.db.consents.filter (fun c => c.conversationId == r.conversation.id))
  let msgs := ((sortDesc (messagesFor r.db.messages r.conversation.id)).take lastMessages).reverse
  (r.db, { userId := r.user.id, conversationId := r.conversation.id,
           consent := lastConsent, state := state, messages := msgs })

/-- One slot of the SSO token cache (`ssoTokenCache`, server.ts:15);
`expiresAt` is a millisecond timestamp. -/
structure TokenCacheEntry where
  token : String
  expiresAt : Int

/-- Environment behaviour of one `fetch` of the token endpoint: the
request rejects (network error), or responds with a non-success status,
or succeeds with an access token and an optional `expires_in`. -/
inductive TokenResponse where
  | networkError : String → TokenResponse
  | failure : String → TokenResponse
  | success : String → Option Int → TokenResponse

/-- Outcome of one call of `getSSOToken`: the cache slot afterwards, the
returned token or the thrown error message, and whether a token request
was issued. -/
structure SSOCallResult where
  cache : Option TokenCacheEntry
  result : Except String String
  requested : Bool

/-- `tokenData.expires_in || 300` (server.ts:45): the reported lifetime,
with 300 substituted when the field is absent or falsy (zero). -/
def ssoExpiresIn (ein : Option Int) : Int :=
  match ein with
  | none => 300
  | some v => if v = 0 then 300 else v

/-- The token request of `getSSOToken` (server.ts:24-51), reached when
the cache slot is unusable: on non-success status it throws with the
status text; on success it fills the cache slot with expiry
`now + (expiresIn - 60) * 1000` milliseconds. -/
def fetchToken (cache : Option TokenCacheEntry) (now : Int)
    (resp : TokenResponse) : SSOCallResult :=
  match resp with
  | TokenResponse.networkError m => { cache := cache, result := Except.error m, requested := true }
  | TokenResponse.failure statusText =>
      { cache := cache, result := Except.error ("Token request failed: " ++ statusText),
        requested := true }
  | TokenResponse.success accessToken ein =>
      let entry : TokenCacheEntry :=
        { token := accessToken, expiresAt := now + (ssoExpiresIn ein - 60) * 1000 }
      { cache := some entry, result := Except.ok accessToken, requested := true }

/-- `getSSOToken` (server.ts:17-52): return the cached token while
`now < expiresAt`, otherwise issue a token request. -/
def getSSOToken (cache : Option TokenCacheEntry) (now : Int)
    (resp : TokenResponse) : SSOCallResult :=
  match cache with
  | some e =>
      if now < e.expiresAt then { cache := cache, result := Except.ok e.token, requested := false }
      else fetchToken cache now resp
  | none => fetchToken cache now resp

/-- The cache slot is unusable: empty, or expired at time `now`. -/
def cacheMiss (cache : Option TokenCacheEntry) (now : Int) : Bool :=
  match cache with
  | none => true
  | some e => decide (e.expiresAt ≤ now)

/-- Environment behaviour of one `fetch` of the existence-check
endpoint: rejection, or a response with ok-flag, status text and JSON
body. -/
inductive CheckOutcome where
  | networkError : String → CheckOutcome
  | response : Bool → String → Json → CheckOutcome

/-- JavaScript property access `base.prop` on a JSON value: throws a
TypeError on `null`, yields the binding on objects, undefined (`none`)
elsewhere. -/
def jsGetProp (base : Json) (prop : String) : Except String (Option Json) :=
  match base with
  | Json.null => Except.error ("Cannot read properties of null (reading " ++ prop ++ ")")
  | Json.obj fields => Except.ok (objGet fields prop)
  | _ => Except.ok none

/-- `userData.exists || false` (server.ts:466): the raw property value
when truthy, otherwise `false`. -/
def jsOrFalse (v : Option Json) : Json :=
  match v with
  | some j => if jsIsTruthy j then j else Json.bool false
  | none => Json.bool false

/-- The structured reply of `validateUserInSSO`: the serialized
`exists` value, the optional `error` message, the echoed `docNumber`,
and the verbatim `userData` body when present. -/
structure ValidateResult where
  existsVal : Json
  error : Option String
  docNumber : String
  userData : Option Json

/-- The `validateUserInSSO` tool (server.ts:431-485): obtain a token via
the cache, call the existence-check endpoint, and catch every thrown
error into a structured `exists:false` result instead of raising. -/
def validateUserInSSO (cache : Option TokenCacheEntry) (now : Int)
    (tokenResp : TokenResponse) (check : CheckOutcome) (docNumber : String) :
    Option TokenCacheEntry × ValidateResult :=
  let t := getSSOToken cache now tokenResp
  match t.result with
  | Except.error m =>
      (t.cache, { existsVal := Json.bool false, error := some m,
                  docNumber := docNumber, userData := none })
  | Except.ok _ =>
      match check with
      | CheckOutcome.networkError m =>
          (t.cache, { existsVal := Json.bool false, error := some m,
                      docNumber := docNumber, userData := none })
      | CheckOutcome.response ok statusText body =>
          if !ok then
            (t.cache, { existsVal := Json.bool false,
                        error := some ("User check failed: " ++ statusText),
                        docNumber := docNumber, userData := none })
          else
            match jsGetProp body "exists" with
            | Except.error m =>
                (t.cache, { existsVal := Json.bool false, error := some m,
                            docNumber := docNumber, userData := none })
            | Except.ok v =>
                (t.cache, { existsVal := jsOrFalse v, error := none,
                            docNumber := docNumber, userData := some body })

/-- Does the environment promise a non-empty message on token-endpoint
rejection?  (Messages thrown by the runtime fetch are non-empty; the
other outcomes carry messages built by the server itself.) -/
def netMsgNonempty : TokenResponse → Bool
  | TokenResponse.networkError m => !(m == "")
  | _ => true

/-- Does the environment promise a non-empty message on existence-check
rejection? -/
def checkMsgNonempty : CheckOutcome → Bool
  | CheckOutcome.networkError m => !(m == "")
  | _ => true

/-- The response body of a successful (ok-status) existence check. -/
def successBody : CheckOutcome → Option Json
  | CheckOutcome.response true _ body => some body
  | _ => none

/-- Is the optional error message present and non-empty? -/
def optStrNonempty : Option String → Bool
  | some m => !(m == "")
  | none => false

theorem find?_map_upd {α : Type} (p : α → Bool) (g : α → α)
    (hg : ∀ x, p x = true → p (g x) = true) (l : List α) :
    (l.map (fun x => if p x then g x else x)).find? p = (l.find? p).map g := by
  induction l with
  | nil => simp
  | cons x xs ih =>
      by_cases hx : p x = true
      · simp [hx, hg x hx]
      · have hx' : p x = false := by simpa using hx
        simp [hx', ih]

theorem upsertUserStep_states (db : DB) (c : Channel) (e : String) (p d : Option String) :
    (upsertUserStep db c e p d).1.states = db.states := by
  unfold upsertUserStep; split <;> rfl

theorem upsertUserStep_messages (db : DB) (c : Channel) (e : String) (p d : Option String) :
    (upsertUserStep db c e p d).1.messages = db.messages := by
  unfold upsertUserStep; split <;> rfl

theorem resolveConversation_states (db : DB) (uid : Nat) :
    (resolveConversation db uid).1.states = db.states := by
  unfold resolveConversation; split <;> rfl

theorem resolveConversation_messages (db : DB) (uid : Nat) :
    (resolveConversation db uid).1.messages = db.messages := by
  unfold resolveConversation; split <;> rfl

theorem resolveConversation_users (db : DB) (uid : Nat) :
    (resolveConversation db uid).1.users = db.users := by
  unfold resolveConversation; split <;> rfl

theorem upsertStateStep_users (db : DB) (cid : Nat) :
    (upsertStateStep db cid).users = db.users := by
  unfold upsertStateStep; split <;> rfl

theorem upsertStateStep_conversations (db : DB) (cid : Nat) :
    (upsertStateStep db cid).conversations = db.conversations := by
  unfold upsertStateStep; split <;> rfl

theorem upsertStateStep_messages (db : DB) (cid : Nat) :
    (upsertStateStep db cid).messages = db.messages := by
  unfold upsertStateStep; split <;> rfl

theorem updateStateData_users (db : DB) (cid : Nat) (v : Json) :
    (updateStateData db cid v).users = db.users := rfl

theorem updateStateData_conversations (db : DB) (cid : Nat) (v : Json) :
    (updateStateData db cid v).conversations = db.conversations := rfl

theorem pickLatest_eq_none_iff (l : List Conversation) : pickLatest l = none ↔ l = [] := by
  cases l with
  | nil => simp [pickLatest]
  | cons c cs =>
      simp only [pickLatest]
      rcases pickLatest cs with _ | b <;> simp

theorem getStateRow_upsertStateStep_self (db : DB) (cid : Nat) :
    getStateRow (upsertStateStep db cid).states cid
      = some ((getStateRow db.states cid).getD (Json.obj [])) := by
  unfold upsertStateStep
  rcases h : db.states.find? (fun s => s.conversationId == cid) with _ | s
  · simp only [getStateRow, h, List.find?_append, Option.map_none', Option.getD_none,
      Option.none_or]
    simp
  · simp [getStateRow, h]

theorem getStateRow_upsertStateStep_preserve (db : DB) (cid c0 : Nat) (v : Json)
    (h : getStateRow db.states c0 = some v) :
    getStateRow (upsertStateStep db cid).states c0 = some v := by
  unfold upsertStateStep
  rcases hf : db.states.find? (fun s => s.conversationId == cid) with _ | s
  · rcases h0 : db.states.find? (fun s => s.conversationId == c0) with _ | s0
    · rw [getStateRow, h0] at h; cases h
    · rw [getStateRow, h0] at h
      simp only [hf, getStateRow, List.find?_append, h0, Option.or_some]
      exact h
  · simp only [hf]
    exact h

theorem getStateRow_update_list (states : List ConversationState) (cid : Nat) (v : Json)
    (h : (getStateRow states cid).isSome = true) :
    getStateRow (states.map (fun s => if s.conversationId == cid then { s with data := v } else s))
      cid = some v := by
  induction states with
  | nil => simp [getStateRow] at h
  | cons s t ih =>
      obtain ⟨scid, sdata⟩ := s
      by_cases hs : (scid == cid) = true
      · unfold getStateRow
        simp only [List.map_cons]
        rw [if_pos hs, List.find?_cons]
        dsimp only
        rw [hs]
        rfl
      · have hs' : (scid == cid) = false := by simpa using hs
        have ht : (getStateRow t cid).isSome = true := by
          rw [getStateRow, List.find?_cons] at h
          dsimp only at h
          rw [hs'] at h
          exact h
        have := ih ht
        unfold getStateRow at this ⊢
        simp only [List.map_cons]
        rw [if_neg (by simp [hs']), List.find?_cons]
        dsimp only
        rw [hs']
        exact this

theorem getStateRow_updateStateData (db : DB) (cid : Nat) (v : Json)
    (h : (getStateRow db.states cid).isSome = true) :
    getStateRow (updateStateData db cid v).states cid = some v := by
  unfold updateStateData
  exact getStateRow_update_list db.states cid v h

theorem applyUserUpdate_id (p d : Option String) (u : User) :
    (applyUserUpdate p d u).id = u.id := rfl

theorem userKeyMatches_applyUserUpdate (c : Channel) (e : String) (p d : Option String)
    (x : User) : userKeyMatches c e (applyUserUpdate p d x) = userKeyMatches c e x := rfl

theorem upsertUserStep_findUser (db : DB) (c : Channel) (e : String) (p d : Option String) :
    findUser (upsertUserStep db c e p d).1.users c e = some (upsertUserStep db c e p d).2 := by
  unfold upsertUserStep
  rcases hf : findUser db.users c e with _ | u
  · unfold findUser at hf ⊢
    simp only [hf]
    rw [List.find?_append, hf]
    simp [userKeyMatches]
  · unfold findUser at hf ⊢
    simp only [hf]
    rw [find?_map_upd (userKeyMatches c e) (applyUserUpdate p d)
      (fun x hx => by rw [userKeyMatches_applyUserUpdate]; exact hx), hf]
    rfl

theorem resolveConversation_latest (db : DB) (uid : Nat) :
    latestConversation (resolveConversation db uid).1.conversations uid
      = some (resolveConversation db uid).2 := by
  unfold resolveConversation
  rcases h : latestConversation db.conversations uid with _ | cv
  · have hnil : db.conversations.filter (fun c => c.userId == uid) = [] := by
      have := (pickLatest_eq_none_iff (db.conversations.filter (fun c => c.userId == uid))).mp
      exact this h
    unfold latestConversation at h ⊢
    simp only [List.filter_append, hnil]
    simp [pickLatest]
  · simp [h]

/-- After a resolution, looking the user up again by the same key finds
exactly the returned user. -/
theorem ensure_findUser (db : DB) (ch e : String) (p d : Option String) :
    findUser (ensureUserAndConversation db ch e p d).db.users (parseChannel ch) e
      = some (ensureUserAndConversation db ch e p d).user := by
  unfold ensureUserAndConversation
  rw [upsertStateStep_users, resolveConversation_users]
  exact upsertUserStep_findUser db (parseChannel ch) e p d

/-- After a resolution, the returned conversation is again the latest
conversation of the returned user. -/
theorem ensure_latest (db : DB) (ch e : String) (p d : Option String) :
    latestConversation (ensureUserAndConversation db ch e p d).db.conversations
        (ensureUserAndConversation db ch e p d).user.id
      = some (ensureUserAndConversation db ch e p d).conversation := by
  unfold ensureUserAndConversation
  rw [upsertStateStep_conversations]
  exact resolveConversation_latest _ _

/-- The resolver never touches the message table. -/
theorem ensure_messages (db : DB) (ch e : String) (p d : Option String) :
    (ensureUserAndConversation db ch e p d).db.messages = db.messages := by
  unfold ensureUserAndConversation
  rw [upsertStateStep_messages, resolveConversation_messages, upsertUserStep_messages]

/-- After a resolution, the returned conversation has a state row: the
prior value when one existed, the empty object otherwise. -/
theorem ensure_getStateRow_self (db : DB) (ch e : String) (p d : Option String) :
    getStateRow (ensureUserAndConversation db ch e p d).db.states
        (ensureUserAndConversation db ch e p d).conversation.id
      = some ((getStateRow db.states
          (ensureUserAndConversation db ch e p d).conversation.id).getD (Json.obj [])) := by
  unfold ensureUserAndConversation
  dsimp only
  rw [getStateRow_upsertStateStep_self]
  rw [resolveConversation_states, upsertUserStep_states]

/-- The resolver never overwrites an existing state row. -/
theorem ensure_getStateRow_preserve (db : DB) (ch e : String) (p d : Option String)
    (c0 : Nat) (v : Json) (h : getStateRow db.states c0 = some v) :
    getStateRow (ensureUserAndConversation db ch e p d).db.states c0 = some v := by
  unfold ensureUserAndConversation
  dsimp only
  apply getStateRow_upsertStateStep_preserve
  rw [resolveConversation_states, upsertUserStep_states]
  exact h

/-- Resolving a key that already has a user and a latest conversation
updates the user in place and reuses that conversation; no user or
conversation row is added. -/
theorem ensure_of_found (db : DB) (ch e : String) (p d : Option String) (u : User)
    (cv : Conversation)
    (hf : findUser db.users (parseChannel ch) e = some u)
    (hl : latestConversation db.conversations u.id = some cv) :
    (ensureUserAndConversation db ch e p d).user = applyUserUpdate p d u ∧
    (ensureUserAndConversation db ch e p d).conversation = cv ∧
    (ensureUserAndConversation db ch e p d).db.users.length = db.users.length ∧
    (ensureUserAndConversation db ch e p d).db.conversations.length
      = db.conversations.length := by
  unfold ensureUserAndConversation upsertUserStep
  simp only [hf]
  simp only [applyUserUpdate_id]
  unfold resolveConversation
  simp only [hl]
  refine ⟨trivial, trivial, ?_, ?_⟩
  · rw [upsertStateStep_users]
    exact List.length_map _ _
  · rw [upsertStateStep_conversations]

/-- Strict ascending order of creation times along a message list (the
shape of an append-only conversation history). -/
def strictAscBy : List Message → Bool
  | [] => true
  | [_] => true
  | a :: b :: t => decide (a.createdAt < b.createdAt) && strictAscBy (b :: t)

theorem strictAscBy_cons (a : Message) (l : List Message)
    (h : strictAscBy (a :: l) = true) :
    strictAscBy l = true ∧ ∀ y ∈ l, a.createdAt < y.createdAt := by
  induction l generalizing a with
  | nil => exact ⟨rfl, by simp⟩
  | cons b t ih =>
      rw [strictAscBy, Bool.and_eq_true, decide_eq_true_eq] at h
      obtain ⟨hab, hbt⟩ := h
      obtain ⟨_, hall⟩ := ih b hbt
      refine ⟨hbt, ?_⟩
      intro y hy
      rcases List.mem_cons.mp hy with rfl | hy'
      · exact hab
      · exact Nat.lt_trans hab (hall y hy')

theorem insertDesc_all_gt (x : Message) (r : List Message)
    (h : ∀ y ∈ r, x.createdAt < y.createdAt) : insertDesc x r = r ++ [x] := by
  induction r with
  | nil => rfl
  | cons y t ih =>
      have hy := h y (List.mem_cons_self y t)
      rw [insertDesc, if_neg (Nat.not_le.mpr hy),
        ih (fun z hz => h z (List.mem_cons_of_mem y hz))]
      rfl

/-- On a strictly ascending history, the descending sort is exactly the
reversed list. -/
theorem sortDesc_of_strictAsc (l : List Message) (h : strictAscBy l = true) :
    sortDesc l = l.reverse := by
  induction l with
  | nil => rfl
  | cons x xs ih =>
      obtain ⟨hxs, hall⟩ := strictAscBy_cons x xs h
      show insertDesc x (sortDesc xs) = (x :: xs).reverse
      rw [ih hxs, insertDesc_all_gt x xs.reverse
        (fun y hy => hall y (List.mem_reverse.mp hy)), List.reverse_cons]

theorem take_reverse_reverse {α : Type} (l : List α) (n : Nat) :
    (l.reverse.take n).reverse = l.drop (l.length - n) := by
  have h := List.rtake_eq_reverse_take_reverse l n
  rw [List.rtake] at h
  exact h.symm

theorem append_ne_empty_left (s t : String) (h : s.length ≠ 0) :
    ((s ++ t) == "") = false := by
  rw [beq_eq_false_iff_ne]
  intro he
  apply h
  have hlen := congrArg String.length he
  rw [String.length_append] at hlen
  have h0 : ("" : String).length = 0 := rfl
  rw [h0] at hlen
  omega

theorem fetchToken_error_shape (cache : Option TokenCacheEntry) (now : Int)
    (resp : TokenResponse) (m : String)
    (h : (fetchToken cache now resp).result = Except.error m) :
    resp = TokenResponse.networkError m ∨
      ∃ st, resp = TokenResponse.failure st ∧ m = "Token request failed: " ++ st := by
  cases resp with
  | networkError m' =>
      simp only [fetchToken] at h
      simp only [Except.error.injEq] at h
      exact Or.inl (by rw [h])
  | failure st =>
      simp only [fetchToken] at h
      simp only [Except.error.injEq] at h
      exact Or.inr ⟨st, rfl, h.symm⟩
  | success tok ein =>
      simp only [fetchToken] at h
      cases h

theorem getSSOToken_error_shape (cache : Option TokenCacheEntry) (now : Int)
    (resp : TokenResponse) (m : String)
    (h : (getSSOToken cache now resp).result = Except.error m) :
    resp = TokenResponse.networkError m ∨
      ∃ st, resp = TokenResponse.failure st ∧ m = "Token request failed: " ++ st := by
  unfold getSSOToken at h
  rcases cache with _ | e
  · exact fetchToken_error_shape none now resp m h
  · dsimp only at h
    by_cases hlt : now < e.expiresAt
    · rw [if_pos hlt] at h
      cases h
    · rw [if_neg hlt] at h
      exact fetchToken_error_shape (some e) now resp m h

theorem stateCount_upsertStateStep (db : DB) (cid : Nat)
    (hle : stateCount db.states cid ≤ 1) :
    stateCount (upsertStateStep db cid).states cid = 1 := by
  unfold upsertStateStep
  rcases hf : db.states.find? (fun s => s.conversationId == cid) with _ | s
  · have hnil : db.states.filter (fun s => s.conversationId == cid) = [] := by
      rw [List.filter_eq_nil_iff]
      intro a ha
      have := List.find?_eq_none.mp hf a ha
      simpa using this
    simp only [hf, stateCount, List.filter_append, hnil, List.nil_append]
    simp
  · simp only [hf]
    have hps : (s.conversationId == cid) = true :=
      @List.find?_some _ (fun x : ConversationState => x.conversationId == cid) s db.states hf
    have hmem : s ∈ db.states.filter (fun x => x.conversationId == cid) := by
      rw [List.mem_filter]
      exact ⟨List.mem_of_find?_eq_some hf, hps⟩
    have h1 : 0 < (db.states.filter (fun x => x.conversationId == cid)).length :=
      List.length_pos.mpr (List.ne_nil_of_mem hmem)
    have h2 : stateCount db.states cid = (db.states.filter (fun x => x.conversationId == cid)).length := rfl
    omega

/-- The conversation id every conversation-level tool resolves for a
(channel, externalId) pair (their `ensureUserAndConversation` call
passes no phone/docNumber). -/
def resolvedConvId (db : DB) (ch eid : String) : Nat :=
  (ensureUserAndConversation db ch eid none none).conversation.id

/-- A sample user row for concrete runs. -/
def wUser : User :=
  { id := 1, channel := Channel.web, externalId := "u", phone := some "p", docNumber := none }

/-- A sample conversation row for concrete runs. -/
def wConv : Conversation := { id := 2, userId := 1, createdAt := 0 }

/-- A one-user, one-conversation store whose state blob is `v`. -/
def wDB (v : Json) : DB :=
  { users := [wUser], conversations := [wConv],
    states := [{ conversationId := 2, data := v }],
    messages := [], consents := [], nextId := 3 }

/-- C1: for every conversation whose stored state is an object and every
new data mapping, setState with replace=false stores the shallow merge of
the prior object with the new data: a key bound in the new data maps to
its new value (replaced wholesale, never merged recursively), and a key
absent from the new data keeps its prior value. -/
theorem setState_merge_shallow (db : DB) (ch eid : String)
    (old data : List (String × Json)) (k : String)
    (h : getStateRow db.states (resolvedConvId db ch eid) = some (Json.obj old)) :
    getStateRow (setState db ch eid data false).states (resolvedConvId db ch eid)
      = some (Json.obj (spreadMerge old data)) ∧
    objGet (spreadMerge old data) k = (objGet data k).or (objGet old k) := by
  refine ⟨?_, objGet_spreadMerge old data k⟩
  have hpre := ensure_getStateRow_preserve db ch eid none none _ _ h
  show getStateRow (updateStateData (ensureUserAndConversation db ch eid none none).db
      (resolvedConvId db ch eid)
      (setStateNext (getStateRow (ensureUserAndConversation db ch eid none none).db.states
        (resolvedConvId db ch eid)) data false)).states
      (resolvedConvId db ch eid) = some (Json.obj (spreadMerge old data))
  rw [show getStateRow (ensureUserAndConversation db ch eid none none).db.states
      (resolvedConvId db ch eid) = some (Json.obj old) from hpre]
  exact getStateRow_updateStateData _ _ _ (by rw [show getStateRow
    (ensureUserAndConversation db ch eid none none).db.states
    (resolvedConvId db ch eid) = some (Json.obj old) from hpre]; rfl)

/-- Witness for C1 at the spec's example: prior state a=1, b=2 merged
with b=3, c=4 yields a=1, b=3, c=4, and key b reads its new value. -/
theorem setState_merge_shallow_witness :
    getStateRow (wDB (Json.obj [("a", Json.num 1), ("b", Json.num 2)])).states
        (resolvedConvId (wDB (Json.obj [("a", Json.num 1), ("b", Json.num 2)])) "web" "u")
      = some (Json.obj [("a", Json.num 1), ("b", Json.num 2)]) ∧
    (getStateRow (setState (wDB (Json.obj [("a", Json.num 1), ("b", Json.num 2)])) "web" "u"
          [("b", Json.num 3), ("c", Json.num 4)] false).states
        (resolvedConvId (wDB (Json.obj [("a", Json.num 1), ("b", Json.num 2)])) "web" "u")
      = some (Json.obj [("a", Json.num 1), ("b", Json.num 3), ("c", Json.num 4)]) ∧
    objGet [("a", Json.num 1), ("b", Json.num 3), ("c", Json.num 4)] "b" = some (Json.num 3)) :=
  ⟨rfl, setState_merge_shallow (wDB (Json.obj [("a", Json.num 1), ("b", Json.num 2)]))
    "web" "u" [("a", Json.num 1), ("b", Json.num 2)] [("b", Json.num 3), ("c", Json.num 4)]
    "b" rfl⟩

/-- Counterexample to C3 as stated: an array-valued prior state is not
replaced.  With prior state the array [1], setState with new data a=2 and
replace=false stores the spread-merge object with index key "0", not the
new data alone (`typeof array === "object"` in JavaScript, so the merge
branch runs and spreads the array by its index keys). -/
theorem setState_array_counterexample :
    getStateRow (setState (wDB (Json.arr [Json.num 1])) "web" "u"
          [("a", Json.num 2)] false).states
        (resolvedConvId (wDB (Json.arr [Json.num 1])) "web" "u")
      = some (Json.obj [("0", Json.num 1), ("a", Json.num 2)]) ∧
    some (Json.obj [("0", Json.num 1), ("a", Json.num 2)])
      ≠ some (Json.obj [("a", Json.num 2)]) := by
  refine ⟨rfl, ?_⟩
  simp

/-- C3 (amended): setState writes the new data as the entire stored
state whenever the replace flag is true, or no prior state row exists, or
the prior stored value is falsy (null, 0, "", false) or of a JavaScript
typeof other than object (string, number, boolean).  An array prior state
is object-typed for this test and is spread-merged instead. -/
theorem setState_replace_conditions (db : DB) (ch eid : String)
    (data : List (String × Json)) (r : Bool) (st : Json)
    (h : getStateRow db.states (resolvedConvId db ch eid) = some st ∧
          (r = true ∨ jsIsTruthy st = false ∨ jsTypeofIsObject st = false)
        ∨ getStateRow db.states (resolvedConvId db ch eid) = none) :
    getStateRow (setState db ch eid data r).states (resolvedConvId db ch eid)
      = some (Json.obj data) := by
  rcases h with ⟨hst, hcond⟩ | hnone
  · have hpre := ensure_getStateRow_preserve db ch eid none none _ _ hst
    have hnext : setStateNext (some st) data r = Json.obj data := by
      unfold setStateNext
      rcases hcond with hc | hc | hc <;> simp [hc]
    show getStateRow (updateStateData (ensureUserAndConversation db ch eid none none).db
        (resolvedConvId db ch eid)
        (setStateNext (getStateRow (ensureUserAndConversation db ch eid none none).db.states
          (resolvedConvId db ch eid)) data r)).states
        (resolvedConvId db ch eid) = some (Json.obj data)
    rw [show getStateRow (ensureUserAndConversation db ch eid none none).db.states
        (resolvedConvId db ch eid) = some st from hpre, hnext]
    exact getStateRow_updateStateData _ _ _ (by
      rw [show getStateRow (ensureUserAndConversation db ch eid none none).db.states
        (resolvedConvId db ch eid) = some st from hpre]; rfl)
  · have hself := ensure_getStateRow_self db ch eid none none
    rw [show getStateRow db.states
        ((ensureUserAndConversation db ch eid none none).conversation.id) = none from hnone] at hself
    have hnext : setStateNext (some (Json.obj [])) data r = Json.obj data := by
      unfold setStateNext
      cases r
      · simp [jsIsTruthy, jsTypeofIsObject, jsOwnEntries, spreadMerge_nil]
      · simp
    show getStateRow (updateStateData (ensureUserAndConversation db ch eid none none).db
        (resolvedConvId db ch eid)
        (setStateNext (getStateRow (ensureUserAndConversation db ch eid none none).db.states
          (resolvedConvId db ch eid)) data r)).states
        (resolvedConvId db ch eid) = some (Json.obj data)
    rw [show getStateRow (ensureUserAndConversation db ch eid none none).db.states
        (resolvedConvId db ch eid) = some (Json.obj []) from hself, hnext]
    exact getStateRow_updateStateData _ _ _ (by
      rw [show getStateRow (ensureUserAndConversation db ch eid none none).db.states
        (resolvedConvId db ch eid) = some (Json.obj []) from hself]; rfl)

/-- Witness for the amended C3: a string-valued prior state (typeof not
object) is entirely replaced by the new data even with replace=false. -/
theorem setState_replace_conditions_witness :
    (getStateRow (wDB (Json.str "x")).states (resolvedConvId (wDB (Json.str "x")) "web" "u")
        = some (Json.str "x") ∧
      (false = true ∨ jsIsTruthy (Json.str "x") = false
        ∨ jsTypeofIsObject (Json.str "x") = false)
      ∨ getStateRow (wDB (Json.str "x")).states
          (resolvedConvId (wDB (Json.str "x")) "web" "u") = none) ∧
    getStateRow (setState (wDB (Json.str "x")) "web" "u" [("a", Json.num 2)] false).states
        (resolvedConvId (wDB (Json.str "x")) "web" "u") = some (Json.obj [("a", Json.num 2)]) :=
  ⟨Or.inl ⟨rfl, Or.inr (Or.inr rfl)⟩,
    setState_replace_conditions (wDB (Json.str "x")) "web" "u" [("a", Json.num 2)] false
      (Json.str "x") (Or.inl ⟨rfl, Or.inr (Or.inr rfl)⟩)⟩

/-- C10: requestDocNumberConfirmation overwrites the entire state blob
with exactly the awaiting-confirmation step and the given docNumber, and
confirmDocNumber overwrites it with exactly the confirmed step; every
other previously stored key is discarded. -/
theorem doc_confirmation_overwrites_state (db : DB) (ch eid doc : String) :
    getStateRow (requestDocNumberConfirmation db ch eid doc).states (resolvedConvId db ch eid)
      = some (Json.obj [("step", Json.str "awaiting_doc_confirmation"),
          ("docNumber", Json.str doc)]) ∧
    getStateRow (confirmDocNumber db ch eid).states (resolvedConvId db ch eid)
      = some (Json.obj [("step", Json.str "document_confirmed")]) := by
  have hself := ensure_getStateRow_self db ch eid none none
  constructor
  · exact getStateRow_updateStateData _ _ _ (by rw [hself]; rfl)
  · exact getStateRow_updateStateData _ _ _ (by rw [hself]; rfl)

/-- C2: two successive initConversation calls with the same channel and
externalId (and arbitrary phone/docNumber arguments) return the same
userId and the same conversationId; the second call adds no user row and
no conversation row. -/
theorem initConversation_idempotent (db : DB) (ch eid : String)
    (p1 d1 p2 d2 : Option String) :
    (initConversation (initConversation db ch eid p1 d1).1 ch eid p2 d2).2.1
      = (initConversation db ch eid p1 d1).2.1 ∧
    (initConversation (initConversation db ch eid p1 d1).1 ch eid p2 d2).2.2
      = (initConversation db ch eid p1 d1).2.2 ∧
    (initConversation (initConversation db ch eid p1 d1).1 ch eid p2 d2).1.users.length
      = (initConversation db ch eid p1 d1).1.users.length ∧
    (initConversation (initConversation db ch eid p1 d1).1 ch eid p2 d2).1.conversations.length
      = (initConversation db ch eid p1 d1).1.conversations.length := by
  obtain ⟨he1, he2, he3, he4⟩ :=
    ensure_of_found (ensureUserAndConversation db ch eid p1 d1).db ch eid p2 d2
      (ensureUserAndConversation db ch eid p1 d1).user
      (ensureUserAndConversation db ch eid p1 d1).conversation
      (ensure_findUser db ch eid p1 d1) (ensure_latest db ch eid p1 d1)
  unfold initConversation
  dsimp only
  refine ⟨?_, ?_, he3, he4⟩
  · rw [he1, applyUserUpdate_id]
  · rw [he2]

theorem ensure_user_of_found (db : DB) (ch eid : String) (p d : Option String) (u : User)
    (hf : findUser db.users (parseChannel ch) eid = some u) :
    (ensureUserAndConversation db ch eid p d).user = applyUserUpdate p d u := by
  unfold ensureUserAndConversation upsertUserStep
  simp only [hf]

/-- C4: after a resolution the resolved conversation has exactly one
state row — created as the empty object when absent, reused untouched
when present — and any pre-existing state row keeps its stored value. -/
theorem ensure_state_row (db : DB) (ch eid : String) (p d : Option String)
    (c0 : Nat) (v : Json)
    (huniq : ∀ c, stateCount db.states c ≤ 1)
    (hprev : getStateRow db.states c0 = some v) :
    getStateRow (ensureUserAndConversation db ch eid p d).db.states
        (ensureUserAndConversation db ch eid p d).conversation.id
      = some ((getStateRow db.states
          (ensureUserAndConversation db ch eid p d).conversation.id).getD (Json.obj [])) ∧
    getStateRow (ensureUserAndConversation db ch eid p d).db.states c0 = some v ∧
    stateCount (ensureUserAndConversation db ch eid p d).db.states
        (ensureUserAndConversation db ch eid p d).conversation.id = 1 := by
  refine ⟨ensure_getStateRow_self db ch eid p d,
    ensure_getStateRow_preserve db ch eid p d c0 v hprev, ?_⟩
  unfold ensureUserAndConversation
  dsimp only
  apply stateCount_upsertStateStep
  rw [resolveConversation_states, upsertUserStep_states]
  exact huniq _

/-- Witness for C4 on a store holding one state row with a non-empty
blob: re-resolution keeps the blob and the row stays unique. -/
theorem ensure_state_row_witness :
    (∀ c, stateCount (wDB (Json.obj [("x", Json.num 9)])).states c ≤ 1) ∧
    getStateRow (wDB (Json.obj [("x", Json.num 9)])).states 2
      = some (Json.obj [("x", Json.num 9)]) ∧
    (getStateRow (ensureUserAndConversation (wDB (Json.obj [("x", Json.num 9)]))
          "web" "u" none none).db.states
        (ensureUserAndConversation (wDB (Json.obj [("x", Json.num 9)]))
          "web" "u" none none).conversation.id
      = some ((getStateRow (wDB (Json.obj [("x", Json.num 9)])).states
          (ensureUserAndConversation (wDB (Json.obj [("x", Json.num 9)]))
            "web" "u" none none).conversation.id).getD (Json.obj [])) ∧
    getStateRow (ensureUserAndConversation (wDB (Json.obj [("x", Json.num 9)]))
        "web" "u" none none).db.states 2 = some (Json.obj [("x", Json.num 9)]) ∧
    stateCount (ensureUserAndConversation (wDB (Json.obj [("x", Json.num 9)]))
        "web" "u" none none).db.states
      (ensureUserAndConversation (wDB (Json.obj [("x", Json.num 9)]))
        "web" "u" none none).conversation.id = 1) :=
  ⟨fun _ => List.length_filter_le _ _, rfl,
    ensure_state_row (wDB (Json.obj [("x", Json.num 9)])) "web" "u" none none 2
      (Json.obj [("x", Json.num 9)]) (fun _ => List.length_filter_le _ _) rfl⟩

/-- C8: resolving an existing user overwrites phone/docNumber only with
provided values: the stored user is the partial update of the prior row,
an absent argument preserves the prior field, and a provided argument
overwrites it. -/
theorem ensure_partial_update (db : DB) (ch eid : String) (p d : Option String)
    (u : User) (s1 s2 : String)
    (h : findUser db.users (parseChannel ch) eid = some u) :
    findUser (ensureUserAndConversation db ch eid p d).db.users (parseChannel ch) eid
      = some (applyUserUpdate p d u) ∧
    (applyUserUpdate none d u).phone = u.phone ∧
    (applyUserUpdate p none u).docNumber = u.docNumber ∧
    (applyUserUpdate (some s1) d u).phone = some s1 ∧
    (applyUserUpdate p (some s2) u).docNumber = some s2 := by
  refine ⟨?_, rfl, rfl, rfl, rfl⟩
  rw [ensure_findUser db ch eid p d, ensure_user_of_found db ch eid p d u h]

/-- Witness for C8: on the sample store, resolving with no phone and a
new docNumber keeps the stored phone and overwrites the docNumber. -/
theorem ensure_partial_update_witness :
    findUser (wDB (Json.obj [])).users (parseChannel "web") "u" = some wUser ∧
    (findUser (ensureUserAndConversation (wDB (Json.obj [])) "web" "u"
          none (some "D")).db.users (parseChannel "web") "u"
        = some (applyUserUpdate none (some "D") wUser) ∧
      (applyUserUpdate none (some "D") wUser).phone = wUser.phone ∧
      (applyUserUpdate none none wUser).docNumber = wUser.docNumber ∧
      (applyUserUpdate (some "P") (some "D") wUser).phone = some "P" ∧
      (applyUserUpdate none (some "D") wUser).docNumber = some "D") :=
  ⟨rfl, ensure_partial_update (wDB (Json.obj [])) "web" "u" none (some "D")
    wUser "P" "D" rfl⟩

/-- C5 (amended): when the cache slot is unusable, a successful token
response fills the slot with expiry now + (e - 60) seconds (in
milliseconds), where e is the reported expires_in when present and
non-zero and 300 when absent or falsy; the new token is returned, and
any later call before that expiry returns the cached token with no
token request issued. -/
theorem getSSOToken_success_caches (cache : Option TokenCacheEntry) (now : Int)
    (tok : String) (ein : Option Int) (now2 : Int) (resp : TokenResponse)
    (hmiss : cacheMiss cache now = true)
    (hfresh : now2 < now + (ssoExpiresIn ein - 60) * 1000) :
    getSSOToken cache now (TokenResponse.success tok ein)
      = { cache := some { token := tok, expiresAt := now + (ssoExpiresIn ein - 60) * 1000 },
          result := Except.ok tok, requested := true } ∧
    getSSOToken (some { token := tok, expiresAt := now + (ssoExpiresIn ein - 60) * 1000 })
        now2 resp
      = { cache := some { token := tok, expiresAt := now + (ssoExpiresIn ein - 60) * 1000 },
          result := Except.ok tok, requested := false } := by
  constructor
  · unfold getSSOToken
    rcases cache with _ | e
    · rfl
    · rw [cacheMiss] at hmiss
      have hnot : ¬ now < e.expiresAt := by
        simp only [decide_eq_true_eq] at hmiss
        omega
      dsimp only
      rw [if_neg hnot]
      rfl
  · unfold getSSOToken
    dsimp only
    rw [if_pos hfresh]

/-- Witness for the amended C5: an empty cache, expires_in absent
(defaulted to 300 seconds), a later read 100 ms after the request. -/
theorem getSSOToken_success_caches_witness :
    cacheMiss none 0 = true ∧
    (100 : Int) < 0 + (ssoExpiresIn none - 60) * 1000 ∧
    (getSSOToken none 0 (TokenResponse.success "t" none)
      = { cache := some { token := "t", expiresAt := 0 + (ssoExpiresIn none - 60) * 1000 },
          result := Except.ok "t", requested := true } ∧
    getSSOToken (some { token := "t", expiresAt := 0 + (ssoExpiresIn none - 60) * 1000 })
        100 (TokenResponse.failure "x")
      = { cache := some { token := "t", expiresAt := 0 + (ssoExpiresIn none - 60) * 1000 },
          result := Except.ok "t", requested := false }) :=
  ⟨rfl, by decide,
    getSSOToken_success_caches none 0 "t" none 100 (TokenResponse.failure "x") rfl (by decide)⟩

/-- Counterexample to C5 as stated: a response carrying expires_in = 0
(present but falsy) is cached with the 300-second default, not with the
claimed now + (0 - 60) seconds. -/
theorem getSSOToken_expires_in_zero_counterexample :
    (getSSOToken none 0 (TokenResponse.success "t" (some 0))).cache
      = some { token := "t", expiresAt := 240000 } ∧
    (240000 : Int) ≠ 0 + ((0 : Int) - 60) * 1000 := by
  refine ⟨rfl, ?_⟩
  decide

/-- C6: when the cache slot is unusable and the token endpoint answers
with a non-success status, getSSOToken throws an error carrying the
status text and the cache slot is left exactly as it was. -/
theorem getSSOToken_failure_preserves_cache (cache : Option TokenCacheEntry) (now : Int)
    (statusText : String) (hmiss : cacheMiss cache now = true) :
    getSSOToken cache now (TokenResponse.failure statusText)
      = { cache := cache,
          result := Except.error ("Token request failed: " ++ statusText),
          requested := true } := by
  unfold getSSOToken
  rcases cache with _ | e
  · rfl
  · rw [cacheMiss] at hmiss
    have hnot : ¬ now < e.expiresAt := by
      simp only [decide_eq_true_eq] at hmiss
      omega
    dsimp only
    rw [if_neg hnot]
    rfl

/-- Witness for C6: a non-success status on an empty cache leaves the
cache empty and reports the status text. -/
theorem getSSOToken_failure_preserves_cache_witness :
    cacheMiss none 0 = true ∧
    getSSOToken none 0 (TokenResponse.failure "Bad Gateway")
      = { cache := none,
          result := Except.error ("Token request failed: " ++ "Bad Gateway"),
          requested := true } :=
  ⟨rfl, getSSOToken_failure_preserves_cache none 0 "Bad Gateway" rfl⟩

/-- C7: validateUserInSSO never raises: on every failure (token error,
network error, non-ok check status, unreadable body) it returns a
structured result with exists=false, a non-empty error message and the
docNumber argument; with no failure it returns the verbatim response
body as userData. -/
theorem validateUserInSSO_structured (cache : Option TokenCacheEntry) (now : Int)
    (tokenResp : TokenResponse) (check : CheckOutcome) (doc : String)
    (h1 : netMsgNonempty tokenResp = true) (h2 : checkMsgNonempty check = true) :
    (validateUserInSSO cache now tokenResp check doc).2.docNumber = doc ∧
    ((validateUserInSSO cache now tokenResp check doc).2.error ≠ none →
      (validateUserInSSO cache now tokenResp check doc).2.existsVal = Json.bool false ∧
      (validateUserInSSO cache now tokenResp check doc).2.userData = none ∧
      optStrNonempty (validateUserInSSO cache now tokenResp check doc).2.error = true) ∧
    ((validateUserInSSO cache now tokenResp check doc).2.error = none →
      (validateUserInSSO cache now tokenResp check doc).2.userData = successBody check ∧
      successBody check ≠ none) := by
  unfold validateUserInSSO
  rcases hres : (getSSOToken cache now tokenResp).result with m | tk
  · simp only [hres]
    have hm : (m == "") = false := by
      rcases getSSOToken_error_shape cache now tokenResp m hres with hnet | ⟨st, hst, hmm2⟩
      · rw [hnet] at h1
        simpa [netMsgNonempty] using h1
      · rw [hmm2]
        exact append_ne_empty_left _ _ (by decide)
    refine ⟨by trivial, fun _ => ⟨by trivial, by trivial, ?_⟩, fun habs => absurd habs (by simp)⟩
    simp [optStrNonempty, hm]
  · simp only [hres]
    rcases check with m | ⟨ok, st, body⟩
    · dsimp only
      have hm : (m == "") = false := by simpa [checkMsgNonempty] using h2
      refine ⟨by trivial, fun _ => ⟨by trivial, by trivial, ?_⟩, fun habs => absurd habs (by simp)⟩
      simp [optStrNonempty, hm]
    · cases ok
      · dsimp only
        have hm : (("User check failed: " ++ st) == "") = false :=
          append_ne_empty_left _ _ (by decide)
        refine ⟨by trivial, fun _ => ⟨by trivial, by trivial, ?_⟩, fun habs => absurd habs (by simp)⟩
        simp [optStrNonempty, hm]
      · dsimp only
        rcases body with _ | b | n | sj | xs | fields
        · dsimp only [jsGetProp]
          have hm : (("Cannot read properties of null (reading " ++ "exists" ++ ")") == "")
              = false := by decide
          refine ⟨by trivial, fun _ => ⟨by trivial, by trivial, ?_⟩, fun habs => absurd habs (by simp)⟩
          simp [optStrNonempty, hm]
        · exact ⟨by trivial, fun habs => absurd rfl habs, fun _ => ⟨rfl, by simp [successBody]⟩⟩
        · exact ⟨by trivial, fun habs => absurd rfl habs, fun _ => ⟨rfl, by simp [successBody]⟩⟩
        · exact ⟨by trivial, fun habs => absurd rfl habs, fun _ => ⟨rfl, by simp [successBody]⟩⟩
        · exact ⟨by trivial, fun habs => absurd rfl habs, fun _ => ⟨rfl, by simp [successBody]⟩⟩
        · exact ⟨by trivial, fun habs => absurd rfl habs, fun _ => ⟨rfl, by simp [successBody]⟩⟩

/-- Witness for C7: a successful token fetch and an ok existence check
return the verbatim body with no error. -/
theorem validateUserInSSO_structured_witness :
    netMsgNonempty (TokenResponse.success "t" none) = true ∧
    checkMsgNonempty (CheckOutcome.response true "OK"
      (Json.obj [("exists", Json.bool true)])) = true ∧
    ((validateUserInSSO none 0 (TokenResponse.success "t" none)
        (CheckOutcome.response true "OK" (Json.obj [("exists", Json.bool true)]))
        "123").2.docNumber = "123" ∧
    ((validateUserInSSO none 0 (TokenResponse.success "t" none)
        (CheckOutcome.response true "OK" (Json.obj [("exists", Json.bool true)]))
        "123").2.error ≠ none →
      (validateUserInSSO none 0 (TokenResponse.success "t" none)
        (CheckOutcome.response true "OK" (Json.obj [("exists", Json.bool true)]))
        "123").2.existsVal = Json.bool false ∧
      (validateUserInSSO none 0 (TokenResponse.success "t" none)
        (CheckOutcome.response true "OK" (Json.obj [("exists", Json.bool true)]))
        "123").2.userData = none ∧
      optStrNonempty (validateUserInSSO none 0 (TokenResponse.success "t" none)
        (CheckOutcome.response true "OK" (Json.obj [("exists", Json.bool true)]))
        "123").2.error = true) ∧
    ((validateUserInSSO none 0 (TokenResponse.success "t" none)
        (CheckOutcome.response true "OK" (Json.obj [("exists", Json.bool true)]))
        "123").2.error = none →
      (validateUserInSSO none 0 (TokenResponse.success "t" none)
        (CheckOutcome.response true "OK" (Json.obj [("exists", Json.bool true)]))
        "123").2.userData
        = successBody (CheckOutcome.response true "OK"
            (Json.obj [("exists", Json.bool true)])) ∧
      successBody (CheckOutcome.response true "OK"
        (Json.obj [("exists", Json.bool true)])) ≠ none)) :=
  ⟨rfl, rfl, validateUserInSSO_structured none 0 (TokenResponse.success "t" none)
    (CheckOutcome.response true "OK" (Json.obj [("exists", Json.bool true)])) "123" rfl rfl⟩

/-- Message `i` of the sample conversation history. -/
def wMsg (i : Nat) : Message :=
  { id := i, conversationId := 2, role := "user", content := "m" ++ toString i,
    meta := [], createdAt := i }

/-- A store with five messages appended in order m1..m5. -/
def wDB9 : DB :=
  { users := [wUser], conversations := [wConv],
    states := [{ conversationId := 2, data := Json.obj [] }],
    messages := [wMsg 1, wMsg 2, wMsg 3, wMsg 4, wMsg 5],
    consents := [], nextId := 10 }

/-- C9: against a conversation whose history is strictly ascending by
creation time, getConversationSummary with lastMessages = n returns
exactly the min(n, k) most recently appended messages, in chronological
(ascending) order — the suffix of the history. -/
theorem getConversationSummary_last_messages (db : DB) (ch eid : String) (n : Nat)
    (hn : 1 ≤ n ∧ n ≤ 50)
    (hasc : strictAscBy (messagesFor db.messages (resolvedConvId db ch eid)) = true) :
    (getConversationSummary db ch eid n).2.messages
      = (messagesFor db.messages (resolvedConvId db ch eid)).drop
          ((messagesFor db.messages (resolvedConvId db ch eid)).length - n) ∧
    (getConversationSummary db ch eid n).2.messages.length
      = min n (messagesFor db.messages (resolvedConvId db ch eid)).length := by
  have hmsgs : (ensureUserAndConversation db ch eid none none).db.messages = db.messages :=
    ensure_messages db ch eid none none
  have hcomp : (getConversationSummary db ch eid n).2.messages
      = ((sortDesc (messagesFor db.messages (resolvedConvId db ch eid))).take n).reverse := by
    show ((sortDesc (messagesFor (ensureUserAndConversation db ch eid none none).db.messages
        (resolvedConvId db ch eid))).take n).reverse = _
    rw [hmsgs]
  constructor
  · rw [hcomp, sortDesc_of_strictAsc _ hasc, take_reverse_reverse]
  · rw [hcomp, sortDesc_of_strictAsc _ hasc, take_reverse_reverse, List.length_drop]
    omega

/-- Witness for C9: lastMessages = 2 against five appended messages
returns exactly the last two, chronologically ordered. -/
theorem getConversationSummary_last_messages_witness :
    (1 ≤ 2 ∧ 2 ≤ 50) ∧
    strictAscBy (messagesFor wDB9.messages (resolvedConvId wDB9 "web" "u")) = true ∧
    ((getConversationSummary wDB9 "web" "u" 2).2.messages = [wMsg 4, wMsg 5] ∧
      (getConversationSummary wDB9 "web" "u" 2).2.messages.length = 2) :=
  ⟨by decide, rfl,
    getConversationSummary_last_messages wDB9 "web" "u" 2 (by decide) rfl⟩
